import Mathlib

/-
Shallow embedding of the payment_service worker (Hono + Drizzle on D1).

The embedding follows `index.ts` (the routes `POST /api/orders/`,
`PUT /api/admin/prepaid/charge/`, `GET /api/payments/:transactionId/`,
`GET /api/profile/`, `GET/POST /api/prepaid/pay/:transactionId/`)
and `db/schema.ts`.  Each D1 statement is modelled as one atomic update
of an explicit database value; the handlers become functions from a
database and request data to a response together with the new database.
Timestamps kept by the storage layer (created_at, updated_at) appear in
no handler logic and are omitted from the row models; paid_at is kept
because the settlement handler writes it.
-/

namespace PaymentService

/-- Order status enumeration from `db/schema.ts` (`orders.status`). -/
inductive OrderStatus
  | pending
  | completed
  | cancelled
deriving DecidableEq, Repr

/-- Payment method enumeration from `db/schema.ts` (`payments.method`). -/
inductive PayMethod
  | cash
  | prepaid
deriving DecidableEq, Repr

/-- Payment status enumeration from `db/schema.ts` (`payments.status`). -/
inductive PayStatus
  | pending
  | completed
  | failed
deriving DecidableEq, Repr

/-- Transaction type of a history row.  The `transaction_history` schema file
is not among the sources; the handlers insert rows with
`transactionType: "charge"` and `"payment"`, and the spec adds `refund`. -/
inductive TxnType
  | charge
  | payment
  | refund
deriving DecidableEq, Repr

/-- A row of `products` (timestamps omitted, see header). -/
structure Product where
  id : String
  name : String
  price : Int
deriving DecidableEq, Repr

/-- A row of `orders` (timestamps omitted). -/
structure OrderRow where
  id : Nat
  totalAmount : Int
  status : OrderStatus
deriving DecidableEq, Repr

/-- A row of `order_details` (timestamps omitted). -/
structure OrderDetailRow where
  id : Nat
  orderId : Nat
  productId : String
  name : String
  price : Int
  quantity : Int
deriving DecidableEq, Repr

/-- A row of `payments` (timestamps other than `paid_at` omitted). -/
structure PaymentRow where
  id : Nat
  orderId : Nat
  userId : Option Nat
  transactionId : String
  amount : Int
  method : PayMethod
  status : PayStatus
  paidAt : Option Int
deriving DecidableEq, Repr

/-- A row of `users`.  The `users` schema file is not among the sources;
the handlers read and write the columns `id`, `uid` and `balance`, matching
the spec (§3 User: id, externalIdentity, balance). -/
structure UserRow where
  id : Nat
  uid : String
  balance : Int
deriving DecidableEq, Repr

/-- A row of `transaction_history` as inserted by the handlers
(`transactionId`, `userId`, `amount`, `transactionType`); the storage-side
autoincrement id and created_at are omitted. -/
structure HistoryRow where
  transactionId : String
  userId : Nat
  amount : Int
  transactionType : TxnType
deriving DecidableEq, Repr

/-- The database: the five relations plus the append-only history, with the
autoincrement counters of the tables whose generated ids the handlers use.
SQLite autoincrement starts at 1. -/
structure DB where
  products : List Product
  orders : List OrderRow
  orderDetails : List OrderDetailRow
  payments : List PaymentRow
  users : List UserRow
  transactionHistory : List HistoryRow
  nextOrderId : Nat
  nextOrderDetailId : Nat
  nextPaymentId : Nat
  nextUserId : Nat
deriving DecidableEq, Repr

/-- The empty database produced by the migrations. -/
def DB.empty : DB :=
  { products := [], orders := [], orderDetails := [], payments := [],
    users := [], transactionHistory := [],
    nextOrderId := 1, nextOrderDetailId := 1, nextPaymentId := 1, nextUserId := 1 }

/-- An element of the external item feed (`Item` of `item-api-schema.ts`,
fields as used by the handler: `jan_code`, `name`, `price`). -/
structure Item where
  jan_code : String
  name : String
  price : Int
deriving DecidableEq, Repr

/-- One requested order line (`details` entry of
`createTransactionApiRequestSchema`, fields as used by the handler). -/
structure DetailReq where
  productId : String
  name : String
  price : Int
  quantity : Int
deriving DecidableEq, Repr

/-- The body of `POST /api/orders/`, fields as used by the handler. -/
structure CreateOrderRequest where
  details : List DetailReq
  totalAmount : Int
  paymentMethod : PayMethod
deriving DecidableEq, Repr

/-- The error outcomes of the handlers, in source order of appearance. -/
inductive ApiErr
  | unknownProduct
  | invalidTotalAmount
  | validationError
  | userNotFound
  | paymentNotFound
  | paymentNotPending
  | insufficientBalance
  | zodParseFailure
deriving DecidableEq, Repr

/-- The HTTP status each error is returned with (`zodParseFailure` is a
thrown ZodError, which Hono surfaces as 500). -/
def httpStatus : ApiErr → Nat
  | .unknownProduct => 400
  | .invalidTotalAmount => 400
  | .validationError => 400
  | .userNotFound => 404
  | .paymentNotFound => 404
  | .paymentNotPending => 400
  | .insufficientBalance => 400
  | .zodParseFailure => 500

instance {ε α : Type} [DecidableEq ε] [DecidableEq α] : DecidableEq (Except ε α) :=
  fun a b =>
    match a, b with
    | .error e, .error f =>
      if h : e = f then .isTrue (by rw [h]) else .isFalse (by intro hc; cases hc; exact h rfl)
    | .error _, .ok _ => .isFalse (by intro hc; cases hc)
    | .ok _, .error _ => .isFalse (by intro hc; cases hc)
    | .ok x, .ok y =>
      if h : x = y then .isTrue (by rw [h]) else .isFalse (by intro hc; cases hc; exact h rfl)

/-- Worker for `chunk10` with a structural fuel argument, so that
evaluation unfolds inside the kernel; the fuel (the length of the list)
never runs out, see `chunk10_cons`. -/
def chunk10Fuel : Nat → List α → List (List α)
  | _, [] => []
  | 0, _ :: _ => []
  | fuel + 1, x :: xs => ((x :: xs).take 10) :: chunk10Fuel fuel ((x :: xs).drop 10)

/-- `chunk(xs, 10)` of es-toolkit: split a list into consecutive chunks of
size 10 (the last one possibly shorter). -/
def chunk10 (l : List α) : List (List α) := chunk10Fuel l.length l

/-- One row of the `INSERT ... ON CONFLICT (id) DO UPDATE SET name, price`
upsert of the catalog sync: overwrite `name` and `price` of the row with the
same id if present, append otherwise. -/
def upsertProduct (ps : List Product) (item : Product) : List Product :=
  if ps.any (fun p => p.id == item.id) then
    ps.map (fun p => if p.id == item.id then { p with name := item.name, price := item.price } else p)
  else
    ps ++ [item]

/-- The catalog sync step of `POST /api/orders/`: the fetched items are
mapped to product rows (`id := jan_code`), chunked by 10, and each chunk
upserted. -/
def syncCatalog (db : DB) (itemData : List Item) : DB :=
  let rows := itemData.map (fun it => Product.mk it.jan_code it.name it.price)
  let ps := (chunk10 rows).foldl (fun ps ch => ch.foldl upsertProduct ps) db.products
  { db with products := ps }

/-- One step of the `reduce` computing `totalAmount` in `POST /api/orders/`:
the detail must have a catalog item with the same `jan_code` and the same
`price`, otherwise `UnknownProductError` is thrown; the matched item price
times the requested quantity is accumulated. -/
def totalStep (itemData : List Item) (acc : Except ApiErr Int) (detail : DetailReq) : Except ApiErr Int :=
  acc.bind fun a =>
    match itemData.find? (fun item => item.jan_code == detail.productId && item.price == detail.price) with
    | none => .error .unknownProduct
    | some item => .ok (a + item.price * detail.quantity)

/-- The `reduce` computing `totalAmount` in `POST /api/orders/`. -/
def computeTotal (itemData : List Item) (details : List DetailReq) : Except ApiErr Int :=
  details.foldl (totalStep itemData) (.ok 0)

/-- Response body of `POST /api/orders/`. -/
structure OrderResponse where
  transactionId : String
  amount : Int
  method : PayMethod
  status : PayStatus
  payUrl : Option String
deriving DecidableEq, Repr

/-- Handler of `POST /api/orders/`.  `txnId` stands for the generated
`crypto.randomUUID()`, `baseUrl` for `env.CONSUMER_SITE_BASE_URL`.  The
failure paths return after the catalog sync but before any order write. -/
def createOrder (db : DB) (itemData : List Item) (req : CreateOrderRequest)
    (txnId : String) (baseUrl : String) : Except ApiErr OrderResponse × DB :=
  let db1 := syncCatalog db itemData
  match computeTotal itemData req.details with
  | .error e => (.error e, db1)
  | .ok totalAmount =>
    if totalAmount ≠ req.totalAmount then
      (.error .invalidTotalAmount, db1)
    else
      let order : OrderRow := { id := db1.nextOrderId, totalAmount := req.totalAmount, status := .pending }
      let db2 := { db1 with orders := db1.orders ++ [order], nextOrderId := db1.nextOrderId + 1 }
      let detailRows := req.details.enum.map
        (fun p => OrderDetailRow.mk (db2.nextOrderDetailId + p.1) order.id p.2.productId p.2.name p.2.price p.2.quantity)
      let db3 := { db2 with
        orderDetails := (chunk10 detailRows).foldl (fun acc ch => acc ++ ch) db2.orderDetails,
        nextOrderDetailId := db2.nextOrderDetailId + detailRows.length }
      let payment : PaymentRow :=
        { id := db3.nextPaymentId, orderId := order.id, userId := none,
          transactionId := txnId, amount := req.totalAmount, method := req.paymentMethod,
          status := if req.paymentMethod = .cash ∨ req.totalAmount = 0 then .completed else .pending,
          paidAt := none }
      let db4 := { db3 with payments := db3.payments ++ [payment], nextPaymentId := db3.nextPaymentId + 1 }
      let db5 :=
        if payment.status = .completed then
          { db4 with orders := db4.orders.map (fun o => if o.id = order.id then { o with status := .completed } else o) }
        else db4
      let payUrl := if payment.status = .pending then some (baseUrl ++ "/pay?txnId=" ++ txnId) else none
      (.ok { transactionId := payment.transactionId, amount := payment.amount,
             method := payment.method, status := payment.status, payUrl := payUrl }, db5)

/-- The payment lookup of the prepaid handlers:
`where(and(eq(payments.transactionId, tid), eq(payments.method, "prepaid"))).get()`. -/
def findPrepaidPayment (db : DB) (tid : String) : Option PaymentRow :=
  db.payments.find? (fun p => p.transactionId == tid && p.method == PayMethod.prepaid)

/-- The user lookup `where(eq(users.uid, uid)).get()`. -/
def findUserByUid (db : DB) (uid : String) : Option UserRow :=
  db.users.find? (fun u => u.uid == uid)

/-- Response body of the prepaid settlement and of the payment detail view. -/
structure SettleResponse where
  transactionId : String
  amount : Int
  method : PayMethod
  status : PayStatus
deriving DecidableEq, Repr

/-- Handler of `POST /api/prepaid/pay/:transactionId/`.  `uid` is the subject
of the verified Firebase token, `now` the clock value used for `paidAt`.
The balance update is the read-compute-write sequence of the source: the
handler reads the user row, computes `newBalance = balance - amount` in
application memory, rejects if negative, and then writes that value. -/
def settlePrepaid (db : DB) (tid uid : String) (now : Int) : Except ApiErr SettleResponse × DB :=
  match findPrepaidPayment db tid with
  | none => (.error .paymentNotFound, db)
  | some payment =>
    if payment.status ≠ .pending then
      (.error .paymentNotPending, db)
    else
      match findUserByUid db uid with
      | none => (.error .userNotFound, db)
      | some user =>
        let newBalance := user.balance - payment.amount
        if newBalance < 0 then
          (.error .insufficientBalance, db)
        else
          let users1 := db.users.map
            (fun u => if u.uid == uid then { u with balance := newBalance } else u)
          let db1 := { db with users := users1 }
          let payments1 := db1.payments.map
            (fun p => if p.transactionId == tid then { p with status := .completed, paidAt := some now } else p)
          let db2 := { db1 with payments := payments1 }
          match db2.payments.find? (fun p => p.transactionId == tid) with
          | none => (.error .zodParseFailure, db2)
          | some updated =>
            let db3 := { db2 with transactionHistory := db2.transactionHistory ++ [⟨tid, user.id, payment.amount, .payment⟩] }
            (.ok { transactionId := updated.transactionId, amount := updated.amount,
                   method := updated.method, status := updated.status }, db3)

/-- Response body of `PUT /api/admin/prepaid/charge/`. -/
structure ChargeResponse where
  transactionId : String
  userId : Nat
  uid : String
  amount : Int
  balance : Int
deriving DecidableEq, Repr

/-- Handler of `PUT /api/admin/prepaid/charge/`.  `txnId` stands for the
generated `crypto.randomUUID()`.  The leading guard is
Modelled from the spec: the validation schema
`adminPrepaidChargeApiRequestSchema` (file `schemas.ts` is not among the
sources) requires, per spec §6, a body `{uid, amount>0}`; a non-positive
amount is rejected as a validation error (400).  The rest follows the
handler: look up the user by uid (404 when absent), write
`balance + amount`, append one `charge` history row. -/
def chargePrepaid (db : DB) (uid : String) (amount : Int) (txnId : String) :
    Except ApiErr ChargeResponse × DB :=
  if amount ≤ 0 then
    (.error .validationError, db)
  else
    match findUserByUid db uid with
    | none => (.error .userNotFound, db)
    | some user =>
      let newBalance := user.balance + amount
      let users1 := db.users.map
        (fun u => if u.id = user.id then { u with balance := newBalance } else u)
      let db1 := { db with users := users1 }
      let db2 := { db1 with transactionHistory := db1.transactionHistory ++ [⟨txnId, user.id, amount, .charge⟩] }
      (.ok { transactionId := txnId, userId := user.id, uid := user.uid,
             amount := amount, balance := newBalance }, db2)

/-- Response body of `GET /api/profile/`. -/
structure ProfileResponse where
  id : Nat
  uid : String
  balance : Int
deriving DecidableEq, Repr

/-- Handler of `GET /api/profile/`: look up the user by the token subject,
lazily inserting a row with balance 0 when absent. -/
def getProfile (db : DB) (uid : String) : ProfileResponse × DB :=
  match findUserByUid db uid with
  | some u => ({ id := u.id, uid := u.uid, balance := u.balance }, db)
  | none =>
    let u : UserRow := { id := db.nextUserId, uid := uid, balance := 0 }
    ({ id := u.id, uid := u.uid, balance := u.balance },
     { db with users := db.users ++ [u], nextUserId := db.nextUserId + 1 })

/-- Handler of `GET /api/payments/:transactionId/` as written: the query is
`db.select().from(payments).get({ transactionId })`.  The builder carries no
`where` clause, and the object passed to `get` only fills placeholders of a
prepared statement, of which this query has none, so the statement returns
the first row of `payments`; `paymentSelectSchema.parse` then throws on
`undefined` when the table is empty.  The path parameter never reaches the
SQL. -/
def getPaymentDetail (db : DB) (transactionId : String) : Except ApiErr SettleResponse :=
  match db.payments.head? with
  | none => .error .zodParseFailure
  | some p => .ok { transactionId := p.transactionId, amount := p.amount,
                    method := p.method, status := p.status }

/-- The states reachable from the fresh database by the state-changing
operations of the service, each run to completion, in any order and with any
request data (sequential execution; the two read-only views change no
state and need no step). -/
inductive Reach : DB → Prop where
  | init : Reach DB.empty
  | order (db : DB) (items : List Item) (req : CreateOrderRequest) (txnId baseUrl : String) :
      Reach db → Reach (createOrder db items req txnId baseUrl).2
  | settle (db : DB) (tid uid : String) (now : Int) :
      Reach db → Reach (settlePrepaid db tid uid now).2
  | charge (db : DB) (uid : String) (amount : Int) (txnId : String) :
      Reach db → Reach (chargePrepaid db uid amount txnId).2
  | profile (db : DB) (uid : String) :
      Reach db → Reach (getProfile db uid).2

/-!  ## A statement-level small-step model of the settlement handler

D1 executes each statement atomically but coordinates nothing across
statements (the source: the handler comments state that database
transactions are not used).  `POST /api/prepaid/pay/:transactionId/` issues
six statements: select payment, select user, update users, update payments,
re-select payment, insert history.  The pure computation between two
statements (the pending check after the first select, the insufficient-funds
check after the second) runs inside the step that issued the preceding
statement.  Interleaving the steps of several in-flight requests models
concurrent execution. -/

/-- The program counter of one in-flight settlement request, carrying the
values the handler holds in local variables at that point. -/
inductive SettlePC where
  | selectPayment
  | selectUser (payment : PaymentRow)
  | updateBalance (payment : PaymentRow) (user : UserRow)
  | updatePayment (payment : PaymentRow) (user : UserRow)
  | reselectPayment (payment : PaymentRow) (user : UserRow)
  | insertHistory (payment : PaymentRow) (user : UserRow) (updated : PaymentRow)
  | done (result : Except ApiErr SettleResponse)
deriving DecidableEq, Repr

/-- One in-flight `POST /api/prepaid/pay/:transactionId/` request. -/
structure SettleThread where
  tid : String
  uid : String
  now : Int
  pc : SettlePC
deriving DecidableEq, Repr

/-- A settlement request that has not yet issued its first statement. -/
def SettleThread.start (tid uid : String) (now : Int) : SettleThread :=
  ⟨tid, uid, now, .selectPayment⟩

/-- Execute the next statement of one in-flight settlement request.  Each
branch mirrors one statement of the handler together with the pure checks
that follow it before the next statement. -/
def settleStep (db : DB) (t : SettleThread) : DB × SettleThread :=
  match t.pc with
  | .selectPayment =>
    (db, { t with pc :=
      match findPrepaidPayment db t.tid with
      | none => .done (.error .paymentNotFound)
      | some p =>
        if p.status ≠ .pending then .done (.error .paymentNotPending)
        else .selectUser p })
  | .selectUser p =>
    (db, { t with pc :=
      match findUserByUid db t.uid with
      | none => .done (.error .userNotFound)
      | some u =>
        if u.balance - p.amount < 0 then .done (.error .insufficientBalance)
        else .updateBalance p u })
  | .updateBalance p u =>
    let users1 := db.users.map
      (fun v => if v.uid == t.uid then { v with balance := u.balance - p.amount } else v)
    ({ db with users := users1 }, { t with pc := .updatePayment p u })
  | .updatePayment p u =>
    let payments1 := db.payments.map
      (fun q => if q.transactionId == t.tid then { q with status := .completed, paidAt := some t.now } else q)
    ({ db with payments := payments1 }, { t with pc := .reselectPayment p u })
  | .reselectPayment p u =>
    (db, { t with pc :=
      match db.payments.find? (fun q => q.transactionId == t.tid) with
      | none => .done (.error .zodParseFailure)
      | some updated => .insertHistory p u updated })
  | .insertHistory p u updated =>
    ({ db with transactionHistory := db.transactionHistory ++ [⟨t.tid, u.id, p.amount, .payment⟩] },
     { t with pc := .done (.ok { transactionId := updated.transactionId, amount := updated.amount,
                                 method := updated.method, status := updated.status }) })
  | .done _ => (db, t)

/-- Run a schedule: at each entry of the schedule, the named thread executes
its next statement (an index without a thread is skipped). -/
def runSchedule : DB → List SettleThread → List Nat → DB × List SettleThread
  | db, ts, [] => (db, ts)
  | db, ts, i :: rest =>
    match ts[i]? with
    | none => runSchedule db ts rest
    | some t =>
      let s := settleStep db t
      runSchedule s.1 (ts.set i s.2) rest

/-!  ## Invariant statements -/

/-- Every stored balance is non-negative. -/
def BalancesNonneg (db : DB) : Prop := ∀ u ∈ db.users, 0 ≤ u.balance

/-- No payment row carries a user id (no handler ever writes one). -/
def PaymentsUserIdNone (db : DB) : Prop := ∀ q ∈ db.payments, q.userId = none

/-- Every stored order id, and every order id referenced by a payment, is
below the order-id autoincrement counter. -/
def OrderIdsBounded (db : DB) : Prop :=
  (∀ o ∈ db.orders, o.id < db.nextOrderId) ∧ (∀ p ∈ db.payments, p.orderId < db.nextOrderId)

/-- A completed order only refers to completed payments. -/
def OrderCompletedPaymentCompleted (db : DB) : Prop :=
  ∀ o ∈ db.orders, ∀ p ∈ db.payments, p.orderId = o.id → o.status = .completed → p.status = .completed

/-!  ## The fuel encoding of chunking is fuel-independent -/

theorem chunk10Fuel_congr {α : Type} : ∀ (f1 : Nat) (l : List α) (f2 : Nat),
    l.length ≤ f1 → l.length ≤ f2 → chunk10Fuel f1 l = chunk10Fuel f2 l := by
  intro f1
  induction f1 with
  | zero =>
    intro l f2 h1 _
    have : l = [] := List.length_eq_zero.mp (Nat.le_zero.mp h1)
    subst this
    cases f2 <;> rfl
  | succ f ih =>
    intro l f2 h1 h2
    cases l with
    | nil => cases f2 <;> rfl
    | cons x xs =>
      cases f2 with
      | zero => simp at h2
      | succ g =>
        show _ :: _ = _ :: _
        congr 1
        apply ih
        · simp only [List.length_drop, List.length_cons] at h1 ⊢
          omega
        · simp only [List.length_drop, List.length_cons] at h2 ⊢
          omega

/-- The recurrence the source `chunk(xs, 10)` satisfies: a non-empty list
contributes its first (up to) ten elements as one chunk, followed by the
chunks of the rest. -/
theorem chunk10_cons {α : Type} (x : α) (xs : List α) :
    chunk10 (x :: xs) = ((x :: xs).take 10) :: chunk10 ((x :: xs).drop 10) := by
  show chunk10Fuel (xs.length + 1) (x :: xs) = _
  show _ :: chunk10Fuel xs.length ((x :: xs).drop 10) = _
  congr 1
  show chunk10Fuel xs.length (List.drop 10 (x :: xs))
    = chunk10Fuel (List.drop 10 (x :: xs)).length (List.drop 10 (x :: xs))
  apply chunk10Fuel_congr
  · simp only [List.length_drop, List.length_cons]
    omega
  · exact le_refl _

theorem chunk10_nil {α : Type} : chunk10 ([] : List α) = [] := rfl

/-!  ## Projection lemmas for the catalog sync -/

theorem syncCatalog_orders (db : DB) (items : List Item) :
    (syncCatalog db items).orders = db.orders := rfl

theorem syncCatalog_payments (db : DB) (items : List Item) :
    (syncCatalog db items).payments = db.payments := rfl

theorem syncCatalog_users (db : DB) (items : List Item) :
    (syncCatalog db items).users = db.users := rfl

theorem syncCatalog_nextOrderId (db : DB) (items : List Item) :
    (syncCatalog db items).nextOrderId = db.nextOrderId := rfl

theorem syncCatalog_nextPaymentId (db : DB) (items : List Item) :
    (syncCatalog db items).nextPaymentId = db.nextPaymentId := rfl

/-!  ## General list lemmas -/

theorem find?_map_eq {α β : Type} (f : α → β) (p : β → Bool) (l : List α) :
    (l.map f).find? p = (l.find? (fun a => p (f a))).map f := by
  induction l with
  | nil => rfl
  | cons x xs ih =>
    by_cases h : p (f x)
    · simp [List.find?_cons, h]
    · simp only [List.map_cons, List.find?_cons, h]
      simpa using ih

/-!  ## Lemmas about the total computation -/

theorem foldl_totalStep_error (items : List Item) (e : ApiErr) (details : List DetailReq) :
    details.foldl (totalStep items) (.error e) = .error e := by
  induction details with
  | nil => rfl
  | cons d ds ih => simpa [totalStep, Except.bind] using ih

theorem foldl_totalStep_ok_sum (items : List Item) (details : List DetailReq) :
    ∀ a s, details.foldl (totalStep items) (.ok a) = .ok s →
      s = a + (details.map (fun d => d.price * d.quantity)).sum := by
  induction details with
  | nil =>
    intro a s h
    simp only [List.foldl_nil] at h
    cases h
    simp
  | cons d ds ih =>
    intro a s h
    simp only [List.foldl_cons] at h
    cases hf : items.find? (fun item => item.jan_code == d.productId && item.price == d.price) with
    | none =>
      rw [show totalStep items (.ok a) d = .error .unknownProduct by simp [totalStep, Except.bind, hf]] at h
      rw [foldl_totalStep_error] at h
      cases h
    | some item =>
      rw [show totalStep items (.ok a) d = .ok (a + item.price * d.quantity) by
        simp [totalStep, Except.bind, hf]] at h
      have hpred := List.find?_some hf
      have hprice : item.price = d.price := by
        have := (Bool.and_eq_true _ _).mp hpred
        exact_mod_cast beq_iff_eq.mp this.2
      have := ih _ _ h
      rw [this, hprice]
      simp [add_assoc]

theorem foldl_totalStep_ok_found (items : List Item) (details : List DetailReq) :
    ∀ a s, details.foldl (totalStep items) (.ok a) = .ok s →
      ∀ d ∈ details,
        (items.find? (fun item => item.jan_code == d.productId && item.price == d.price)).isSome := by
  induction details with
  | nil => intro a s _ d hd; cases hd
  | cons d ds ih =>
    intro a s h e he
    simp only [List.foldl_cons] at h
    cases hf : items.find? (fun item => item.jan_code == d.productId && item.price == d.price) with
    | none =>
      rw [show totalStep items (.ok a) d = .error .unknownProduct by simp [totalStep, Except.bind, hf]] at h
      rw [foldl_totalStep_error] at h
      cases h
    | some item =>
      rw [show totalStep items (.ok a) d = .ok (a + item.price * d.quantity) by
        simp [totalStep, Except.bind, hf]] at h
      rcases List.mem_cons.mp he with he | he
      · subst he; rw [hf]; rfl
      · exact ih _ _ h e he

theorem foldl_totalStep_error_eq (items : List Item) (details : List DetailReq) :
    ∀ a e, details.foldl (totalStep items) (.ok a) = .error e → e = .unknownProduct := by
  induction details with
  | nil => intro a e h; cases h
  | cons d ds ih =>
    intro a e h
    simp only [List.foldl_cons] at h
    cases hf : items.find? (fun item => item.jan_code == d.productId && item.price == d.price) with
    | none =>
      rw [show totalStep items (.ok a) d = .error .unknownProduct by simp [totalStep, Except.bind, hf]] at h
      rw [foldl_totalStep_error] at h
      cases h
      rfl
    | some item =>
      rw [show totalStep items (.ok a) d = .ok (a + item.price * d.quantity) by
        simp [totalStep, Except.bind, hf]] at h
      exact ih _ _ h

theorem computeTotal_ok_sum (items : List Item) (details : List DetailReq) (s : Int)
    (h : computeTotal items details = .ok s) :
    s = (details.map (fun d => d.price * d.quantity)).sum := by
  simpa using foldl_totalStep_ok_sum items details 0 s h

theorem computeTotal_of_unmatched (items : List Item) (details : List DetailReq)
    (h : ∃ d ∈ details,
      items.find? (fun item => item.jan_code == d.productId && item.price == d.price) = none) :
    computeTotal items details = .error .unknownProduct := by
  cases hct : computeTotal items details with
  | ok s =>
    obtain ⟨d, hd, hnone⟩ := h
    have := foldl_totalStep_ok_found items details 0 s hct d hd
    rw [hnone] at this
    cases this
  | error e =>
    rw [foldl_totalStep_error_eq items details 0 e hct]

/-!  ## Sanity checks on concrete inputs -/

example :
    (settlePrepaid
      { DB.empty with
        payments := [⟨1, 1, none, "t1", 100, .prepaid, .pending, none⟩],
        users := [⟨1, "u1", 100⟩] }
      "t1" "u1" 5).1 = .ok ⟨"t1", 100, .prepaid, .completed⟩ := by decide

example :
    (settlePrepaid
      { DB.empty with
        payments := [⟨1, 1, none, "t1", 500, .prepaid, .pending, none⟩],
        users := [⟨1, "u1", 300⟩] }
      "t1" "u1" 5).1 = .error .insufficientBalance := by decide

example :
    (createOrder DB.empty [⟨"P1", "Apple", 500⟩]
      { details := [⟨"P1", "Apple", 500, 2⟩], totalAmount := 1000, paymentMethod := .cash }
      "t1" "https://shop").1
    = .ok ⟨"t1", 1000, .cash, .completed, none⟩ := by decide

example :
    (createOrder DB.empty [⟨"P1", "Apple", 500⟩]
      { details := [⟨"P1", "Apple", 500, 2⟩], totalAmount := 1000, paymentMethod := .prepaid }
      "t1" "https://shop").1
    = .ok ⟨"t1", 1000, .prepaid, .pending, some "https://shop/pay?txnId=t1"⟩ := by decide

example :
    (createOrder DB.empty [⟨"P1", "Apple", 500⟩]
      { details := [⟨"P1", "Apple", 400, 1⟩], totalAmount := 400, paymentMethod := .cash }
      "t1" "https://shop").1 = .error .unknownProduct := by decide

/-!  ## Lemmas about the settlement lookups -/

theorem findPrepaidPayment_spec (db : DB) (tid : String) (p : PaymentRow)
    (hp : findPrepaidPayment db tid = some p) :
    p ∈ db.payments ∧ p.transactionId = tid ∧ p.method = .prepaid := by
  unfold findPrepaidPayment at hp
  have h := List.find?_some hp
  simp only [Bool.and_eq_true, beq_iff_eq] at h
  exact ⟨List.mem_of_find?_eq_some hp, h.1, h.2⟩

theorem findUserByUid_spec (db : DB) (uid : String) (u : UserRow)
    (hu : findUserByUid db uid = some u) :
    u ∈ db.users ∧ u.uid = uid := by
  unfold findUserByUid at hu
  have h := List.find?_some hu
  simp only [beq_iff_eq] at h
  exact ⟨List.mem_of_find?_eq_some hu, h⟩

/-- The balance write of the settlement handler preserves the result of the
user lookup, updating its balance field. -/
theorem find?_user_after_balance_write (uid : String) (nb : Int) (l : List UserRow) :
    (l.map (fun v => if v.uid == uid then { v with balance := nb } else v)).find?
        (fun v => v.uid == uid)
    = (l.find? (fun v => v.uid == uid)).map
        (fun v => if v.uid == uid then { v with balance := nb } else v) := by
  rw [find?_map_eq]
  have hfun : (fun v : UserRow => ((if v.uid == uid then { v with balance := nb } else v) : UserRow).uid == uid)
      = (fun v : UserRow => v.uid == uid) := by
    funext v
    cases h : v.uid == uid <;> simp [h]
  rw [hfun]

/-- The status write of the settlement handler commutes with the re-select
by transaction id. -/
theorem find?_payment_after_status_write (tid : String) (now : Int) (l : List PaymentRow) :
    (l.map (fun q => if q.transactionId == tid then { q with status := .completed, paidAt := some now } else q)).find?
        (fun q => q.transactionId == tid)
    = (l.find? (fun q => q.transactionId == tid)).map
        (fun q => if q.transactionId == tid then { q with status := .completed, paidAt := some now } else q) := by
  rw [find?_map_eq]
  have hfun : (fun q : PaymentRow => ((if q.transactionId == tid then { q with status := .completed, paidAt := some now } else q) : PaymentRow).transactionId == tid)
      = (fun q : PaymentRow => q.transactionId == tid) := by
    funext q
    cases h : q.transactionId == tid <;> simp [h]
  rw [hfun]

/-- The status write of the settlement handler commutes with the lookup by
transaction id and method. -/
theorem find?_prepaid_after_status_write (tid : String) (now : Int) (l : List PaymentRow) :
    (l.map (fun q => if q.transactionId == tid then { q with status := .completed, paidAt := some now } else q)).find?
        (fun q => q.transactionId == tid && q.method == PayMethod.prepaid)
    = (l.find? (fun q => q.transactionId == tid && q.method == PayMethod.prepaid)).map
        (fun q => if q.transactionId == tid then { q with status := .completed, paidAt := some now } else q) := by
  rw [find?_map_eq]
  have hfun : (fun q : PaymentRow => ((if q.transactionId == tid then { q with status := .completed, paidAt := some now } else q) : PaymentRow).transactionId == tid && ((if q.transactionId == tid then { q with status := .completed, paidAt := some now } else q) : PaymentRow).method == PayMethod.prepaid)
      = (fun q : PaymentRow => q.transactionId == tid && q.method == PayMethod.prepaid) := by
    funext q
    cases h : q.transactionId == tid <;> simp [h]
  rw [hfun]

/-- Shape of the successful settlement: the three writes of the handler, in
order, and a response whose transaction id is the requested one and whose
status is completed. -/
theorem settle_success (db : DB) (tid uid : String) (now : Int) (p : PaymentRow) (u : UserRow)
    (hp : findPrepaidPayment db tid = some p) (hpend : p.status = .pending)
    (hu : findUserByUid db uid = some u) (hge : p.amount ≤ u.balance) :
    ∃ r : SettleResponse,
      settlePrepaid db tid uid now =
        (.ok r,
         { db with
           users := db.users.map (fun v => if v.uid == uid then { v with balance := u.balance - p.amount } else v),
           payments := db.payments.map (fun q => if q.transactionId == tid then { q with status := .completed, paidAt := some now } else q),
           transactionHistory := db.transactionHistory ++ [⟨tid, u.id, p.amount, .payment⟩] })
      ∧ r.transactionId = tid ∧ r.status = .completed := by
  have hneg : ¬ (u.balance - p.amount < 0) := by omega
  obtain ⟨hmem, htid, hmeth⟩ := findPrepaidPayment_spec db tid p hp
  cases hfind : db.payments.find? (fun q => q.transactionId == tid) with
  | none =>
    exact absurd (List.find?_eq_none.mp hfind p hmem) (by simp [htid])
  | some q0 =>
    have hq0tid : q0.transactionId = tid := by simpa using List.find?_some hfind
    refine ⟨⟨tid, q0.amount, q0.method, .completed⟩, ?_, rfl, rfl⟩
    simp only [settlePrepaid, hp, hu, hpend, hneg, if_neg, if_false]
    rw [if_neg (show ¬ (PayStatus.pending ≠ PayStatus.pending) by simp)]
    rw [find?_payment_after_status_write, hfind]
    simp [hq0tid]

/-!  ## Claim C4 -/

/-- C4: for every pending prepaid payment and every user whose balance is
below the payment amount, the settlement operation returns
InsufficientBalance with HTTP status 400 and returns the database
unchanged: the balance is unmodified, the payment stays pending, and no
transaction-history row is appended. -/
theorem settle_insufficient_balance_unchanged (db : DB) (tid uid : String) (now : Int)
    (p : PaymentRow) (u : UserRow)
    (hp : findPrepaidPayment db tid = some p) (hpend : p.status = .pending)
    (hu : findUserByUid db uid = some u) (hlt : u.balance < p.amount) :
    settlePrepaid db tid uid now = (.error .insufficientBalance, db) ∧
    httpStatus .insufficientBalance = 400 := by
  have hneg : u.balance - p.amount < 0 := by omega
  refine ⟨?_, rfl⟩
  simp [settlePrepaid, hp, hu, hpend, hneg]

/-- Witness for C4 at the balances of spec Scenario D: balance 300 against a
pending prepaid payment of 500. -/
theorem settle_insufficient_balance_unchanged_witness :
    settlePrepaid
      { DB.empty with payments := [⟨1, 1, none, "t1", 500, .prepaid, .pending, none⟩], users := [⟨1, "u1", 300⟩], nextPaymentId := 2, nextUserId := 2 }
      "t1" "u1" 7
    = (.error .insufficientBalance,
       { DB.empty with payments := [⟨1, 1, none, "t1", 500, .prepaid, .pending, none⟩], users := [⟨1, "u1", 300⟩], nextPaymentId := 2, nextUserId := 2 }) ∧
    httpStatus .insufficientBalance = 400 :=
  settle_insufficient_balance_unchanged
    { DB.empty with payments := [⟨1, 1, none, "t1", 500, .prepaid, .pending, none⟩], users := [⟨1, "u1", 300⟩], nextPaymentId := 2, nextUserId := 2 }
    "t1" "u1" 7
    ⟨1, 1, none, "t1", 500, .prepaid, .pending, none⟩ ⟨1, "u1", 300⟩
    (by decide) (by decide) (by decide) (by decide)

/-!  ## Claim C7 -/

/-- C7: settling the same transactionId twice sequentially, with sufficient
balance, succeeds the first time; the second call fails with the
Conflict-class error paymentNotPending, HTTP 400, and leaves the state of
the first call untouched — no second balance mutation and no second
history row. -/
theorem settle_twice_second_conflict (db : DB) (tid uid uid2 : String) (now now2 : Int)
    (p : PaymentRow) (u : UserRow)
    (hp : findPrepaidPayment db tid = some p) (hpend : p.status = .pending)
    (hu : findUserByUid db uid = some u) (hge : p.amount ≤ u.balance) :
    ∃ r db1, settlePrepaid db tid uid now = (.ok r, db1) ∧
      settlePrepaid db1 tid uid2 now2 = (.error .paymentNotPending, db1) ∧
      httpStatus .paymentNotPending = 400 := by
  obtain ⟨hmem, htid, hmeth⟩ := findPrepaidPayment_spec db tid p hp
  obtain ⟨r, heq, hrtid, hrst⟩ := settle_success db tid uid now p u hp hpend hu hge
  refine ⟨r, _, heq, ?_, rfl⟩
  have hfind2 : findPrepaidPayment
      { db with
        users := db.users.map (fun v => if v.uid == uid then { v with balance := u.balance - p.amount } else v),
        payments := db.payments.map (fun q => if q.transactionId == tid then { q with status := .completed, paidAt := some now } else q),
        transactionHistory := db.transactionHistory ++ [⟨tid, u.id, p.amount, .payment⟩] } tid
      = some { p with status := .completed, paidAt := some now } := by
    unfold findPrepaidPayment at hp ⊢
    rw [show ({ db with
        users := db.users.map (fun v => if v.uid == uid then { v with balance := u.balance - p.amount } else v),
        payments := db.payments.map (fun q => if q.transactionId == tid then { q with status := .completed, paidAt := some now } else q),
        transactionHistory := db.transactionHistory ++ [⟨tid, u.id, p.amount, .payment⟩] } : DB).payments
      = db.payments.map (fun q => if q.transactionId == tid then { q with status := .completed, paidAt := some now } else q) from rfl]
    rw [find?_prepaid_after_status_write, hp]
    simp [htid]
  unfold settlePrepaid
  rw [hfind2]
  simp

/-- Witness for C7: a user with balance 100 settles a pending prepaid
payment of 100; the second call is rejected as not pending. -/
theorem settle_twice_second_conflict_witness :
    ∃ r db1,
      settlePrepaid
        { DB.empty with payments := [⟨1, 1, none, "t1", 100, .prepaid, .pending, none⟩], users := [⟨1, "u1", 100⟩], nextPaymentId := 2, nextUserId := 2 }
        "t1" "u1" 7 = (.ok r, db1) ∧
      settlePrepaid db1 "t1" "u1" 8 = (.error .paymentNotPending, db1) ∧
      httpStatus .paymentNotPending = 400 :=
  settle_twice_second_conflict
    { DB.empty with payments := [⟨1, 1, none, "t1", 100, .prepaid, .pending, none⟩], users := [⟨1, "u1", 100⟩], nextPaymentId := 2, nextUserId := 2 }
    "t1" "u1" "u1" 7 8
    ⟨1, 1, none, "t1", 100, .prepaid, .pending, none⟩ ⟨1, "u1", 100⟩
    (by decide) (by decide) (by decide) (by decide)

/-!  ## Shape lemmas for the reachability invariants -/

/-- Order creation either leaves `payments` unchanged (failure paths) or
appends exactly one payment row whose `userId` is not set. -/
theorem createOrder_payments_shape (db : DB) (items : List Item) (req : CreateOrderRequest)
    (txnId baseUrl : String) :
    (createOrder db items req txnId baseUrl).2.payments = db.payments ∨
    ∃ pay : PaymentRow, pay.userId = none ∧
      (createOrder db items req txnId baseUrl).2.payments = db.payments ++ [pay] := by
  unfold createOrder
  split
  · exact .inl rfl
  · split
    · exact .inl rfl
    · right
      split
      · exact ⟨_, rfl, rfl⟩
      · exact ⟨_, rfl, rfl⟩

/-- Order creation never changes the users relation. -/
theorem createOrder_users_eq (db : DB) (items : List Item) (req : CreateOrderRequest)
    (txnId baseUrl : String) :
    (createOrder db items req txnId baseUrl).2.users = db.users := by
  unfold createOrder
  split
  · rfl
  · split
    · rfl
    · split <;> rfl

/-- Case analysis on the database a settlement call returns: the failure
paths return it unchanged; the success path performs the balance write and
the status write (the history append touches no relation any invariant
below mentions). -/
theorem settle_db_shape (db : DB) (tid uid : String) (now : Int) :
    (settlePrepaid db tid uid now).2 = db ∨
    ∃ p u, findPrepaidPayment db tid = some p ∧ findUserByUid db uid = some u ∧
      0 ≤ u.balance - p.amount ∧
      (settlePrepaid db tid uid now).2.orders = db.orders ∧
      (settlePrepaid db tid uid now).2.nextOrderId = db.nextOrderId ∧
      (settlePrepaid db tid uid now).2.users
        = db.users.map (fun v => if v.uid == uid then { v with balance := u.balance - p.amount } else v) ∧
      (settlePrepaid db tid uid now).2.payments
        = db.payments.map (fun q => if q.transactionId == tid then { q with status := .completed, paidAt := some now } else q) := by
  cases hfp : findPrepaidPayment db tid with
  | none => left; simp [settlePrepaid, hfp]
  | some p =>
    by_cases hpend : p.status = .pending
    · cases hu : findUserByUid db uid with
      | none => left; simp [settlePrepaid, hfp, hpend, hu]
      | some u =>
        by_cases hbal : u.balance - p.amount < 0
        · left; simp [settlePrepaid, hfp, hpend, hu, hbal]
        · right
          refine ⟨p, u, rfl, rfl, by omega, ?_, ?_, ?_, ?_⟩ <;>
            · simp only [settlePrepaid, hfp, hpend, hu, hbal]
              simp only [show ¬ (PayStatus.pending ≠ PayStatus.pending) by simp, if_false, ite_false]
              split <;> rfl
    · left; simp [settlePrepaid, hfp, hpend]

/-- Every payment row after a settlement call keeps the `userId` of the row
it came from. -/
theorem settle_payments_userId (db : DB) (tid uid : String) (now : Int) :
    ∀ q ∈ (settlePrepaid db tid uid now).2.payments, ∃ q0 ∈ db.payments, q.userId = q0.userId := by
  rcases settle_db_shape db tid uid now with heq | ⟨p, u, _, _, _, _, _, _, hpay⟩
  · rw [heq]; exact fun q hq => ⟨q, hq, rfl⟩
  · intro q hq
    rw [hpay] at hq
    simp only [List.mem_map] at hq
    obtain ⟨q0, hq0, rfl⟩ := hq
    refine ⟨q0, hq0, ?_⟩
    split <;> rfl

/-- The admin charge never changes the payments relation. -/
theorem charge_payments_eq (db : DB) (uid : String) (amount : Int) (txnId : String) :
    (chargePrepaid db uid amount txnId).2.payments = db.payments := by
  unfold chargePrepaid
  split
  · rfl
  · cases hu : findUserByUid db uid with
    | none => rfl
    | some user => rfl

/-- The profile view never changes the payments relation. -/
theorem profile_payments_eq (db : DB) (uid : String) :
    (getProfile db uid).2.payments = db.payments := by
  unfold getProfile
  cases hu : findUserByUid db uid with
  | none => rfl
  | some u => rfl

/-- In every reachable state no payment row carries a user id: order
creation inserts payments with `userId` unset and no handler ever writes
the column. -/
theorem reach_payments_userId_none (db : DB) (h : Reach db) : PaymentsUserIdNone db := by
  induction h with
  | init => intro q hq; cases hq
  | order db items req txnId baseUrl _ ih =>
    rcases createOrder_payments_shape db items req txnId baseUrl with heq | ⟨pay, hnone, heq⟩
    · intro q hq; rw [heq] at hq; exact ih q hq
    · intro q hq
      rw [heq] at hq
      rcases List.mem_append.mp hq with hq | hq
      · exact ih q hq
      · rw [List.mem_singleton.mp hq]; exact hnone
  | settle db tid uid now _ ih =>
    intro q hq
    obtain ⟨q0, hq0, hid⟩ := settle_payments_userId db tid uid now q hq
    rw [hid]; exact ih q0 hq0
  | charge db uid amount txnId _ ih =>
    intro q hq
    rw [charge_payments_eq db uid amount txnId] at hq
    exact ih q hq
  | profile db uid _ ih =>
    intro q hq
    rw [profile_payments_eq db uid] at hq
    exact ih q hq

/-- Case analysis on the database an admin charge returns: unchanged on the
failure paths, or the single balance write `balance + amount` under the
validated `amount > 0`. -/
theorem charge_db_shape (db : DB) (uid : String) (amount : Int) (txnId : String) :
    (chargePrepaid db uid amount txnId).2 = db ∨
    ∃ u, findUserByUid db uid = some u ∧ 0 < amount ∧
      (chargePrepaid db uid amount txnId).2.orders = db.orders ∧
      (chargePrepaid db uid amount txnId).2.nextOrderId = db.nextOrderId ∧
      (chargePrepaid db uid amount txnId).2.payments = db.payments ∧
      (chargePrepaid db uid amount txnId).2.users
        = db.users.map (fun v => if v.id = u.id then { v with balance := u.balance + amount } else v) := by
  by_cases hval : amount ≤ 0
  · left; simp [chargePrepaid, hval]
  · cases hu : findUserByUid db uid with
    | none => left; simp [chargePrepaid, hval, hu]
    | some u =>
      right
      refine ⟨u, rfl, by omega, ?_, ?_, ?_, ?_⟩ <;> simp [chargePrepaid, hval, hu]

/-- The profile view either leaves users unchanged or appends the lazily
created row with balance 0. -/
theorem profile_users_shape (db : DB) (uid : String) :
    (getProfile db uid).2.users = db.users ∨
    (getProfile db uid).2.users = db.users ++ [⟨db.nextUserId, uid, 0⟩] := by
  unfold getProfile
  split
  · exact .inl rfl
  · exact .inr rfl

/-!  ## Claim C10 -/

/-- C10: the settlement operation performs no ownership check.  For every
pending prepaid payment found under the transaction id and every
authenticated user with sufficient balance, settlement succeeds and debits
that user by the payment amount — no hypothesis links the payment to the
user — and the `userId` column of `payments` is never written: settlement
preserves it and every reachable state has it unset. -/
theorem settle_ignores_payment_ownership (db : DB) (tid uid : String) (now : Int)
    (p : PaymentRow) (u : UserRow)
    (hp : findPrepaidPayment db tid = some p) (hpend : p.status = .pending)
    (hu : findUserByUid db uid = some u) (hge : p.amount ≤ u.balance) :
    (∃ r db1, settlePrepaid db tid uid now = (.ok r, db1) ∧ r.status = .completed ∧
      findUserByUid db1 uid = some { u with balance := u.balance - p.amount } ∧
      db1.payments.map PaymentRow.userId = db.payments.map PaymentRow.userId) ∧
    (∀ db0, Reach db0 → PaymentsUserIdNone db0) := by
  refine ⟨?_, reach_payments_userId_none⟩
  obtain ⟨humem, huid⟩ := findUserByUid_spec db uid u hu
  obtain ⟨r, heq, hrtid, hrst⟩ := settle_success db tid uid now p u hp hpend hu hge
  refine ⟨r, _, heq, hrst, ?_, ?_⟩
  · unfold findUserByUid at hu ⊢
    rw [show ({ db with
        users := db.users.map (fun v => if v.uid == uid then { v with balance := u.balance - p.amount } else v),
        payments := db.payments.map (fun q => if q.transactionId == tid then { q with status := .completed, paidAt := some now } else q),
        transactionHistory := db.transactionHistory ++ [⟨tid, u.id, p.amount, .payment⟩] } : DB).users
      = db.users.map (fun v => if v.uid == uid then { v with balance := u.balance - p.amount } else v) from rfl]
    rw [find?_user_after_balance_write, hu]
    simp [huid]
  · rw [show ({ db with
        users := db.users.map (fun v => if v.uid == uid then { v with balance := u.balance - p.amount } else v),
        payments := db.payments.map (fun q => if q.transactionId == tid then { q with status := .completed, paidAt := some now } else q),
        transactionHistory := db.transactionHistory ++ [⟨tid, u.id, p.amount, .payment⟩] } : DB).payments
      = db.payments.map (fun q => if q.transactionId == tid then { q with status := .completed, paidAt := some now } else q) from rfl]
    rw [List.map_map]
    have hfun : (PaymentRow.userId ∘ fun q => if q.transactionId == tid then { q with status := .completed, paidAt := some now } else q)
        = PaymentRow.userId := by
      funext q
      simp only [Function.comp_apply]
      split <;> rfl
    rw [hfun]

/-- Witness for C10: a user settles a pending prepaid payment created for
an order that has no association with that user. -/
theorem settle_ignores_payment_ownership_witness :
    (∃ r db1,
        settlePrepaid
          { DB.empty with payments := [⟨1, 1, none, "t9", 250, .prepaid, .pending, none⟩], users := [⟨7, "stranger", 300⟩], nextPaymentId := 2, nextUserId := 8 }
          "t9" "stranger" 11 = (.ok r, db1) ∧ r.status = .completed ∧
        findUserByUid db1 "stranger" = some ⟨7, "stranger", 50⟩ ∧
        db1.payments.map PaymentRow.userId
          = ([⟨1, 1, none, "t9", 250, .prepaid, .pending, none⟩] : List PaymentRow).map PaymentRow.userId) ∧
    (∀ db0, Reach db0 → PaymentsUserIdNone db0) :=
  settle_ignores_payment_ownership
    { DB.empty with payments := [⟨1, 1, none, "t9", 250, .prepaid, .pending, none⟩], users := [⟨7, "stranger", 300⟩], nextPaymentId := 2, nextUserId := 8 }
    "t9" "stranger" 11
    ⟨1, 1, none, "t9", 250, .prepaid, .pending, none⟩ ⟨7, "stranger", 300⟩
    (by decide) (by decide) (by decide) (by decide)

/-!  ## Claim C2 -/

/-- C2: under sequential execution, every reachable state has only
non-negative balances: the lazy creation inserts balance 0, the validated
credit adds a positive amount to a non-negative balance, and the debit
writes `balance - amount` only after checking it is non-negative. -/
theorem reach_balances_nonneg (db : DB) (h : Reach db) : BalancesNonneg db := by
  induction h with
  | init => intro u hu; cases hu
  | order db items req txnId baseUrl _ ih =>
    intro u hu
    rw [createOrder_users_eq] at hu
    exact ih u hu
  | settle db tid uid now _ ih =>
    rcases settle_db_shape db tid uid now with heq | ⟨p, u0, _, _, hge, _, _, husers, _⟩
    · rw [heq]; exact ih
    · intro v hv
      rw [husers] at hv
      simp only [List.mem_map] at hv
      obtain ⟨v0, hv0, rfl⟩ := hv
      split
      · exact hge
      · exact ih v0 hv0
  | charge db uid amount txnId _ ih =>
    rcases charge_db_shape db uid amount txnId with heq | ⟨u0, hu0, hpos, _, _, _, husers⟩
    · rw [heq]; exact ih
    · intro v hv
      rw [husers] at hv
      simp only [List.mem_map] at hv
      obtain ⟨v0, hv0, rfl⟩ := hv
      have h0 : 0 ≤ u0.balance := ih u0 (findUserByUid_spec db uid u0 hu0).1
      split
      · exact add_nonneg h0 (le_of_lt hpos)
      · exact ih v0 hv0
  | profile db uid _ ih =>
    rcases profile_users_shape db uid with heq | heq
    · intro v hv; rw [heq] at hv; exact ih v hv
    · intro v hv
      rw [heq] at hv
      rcases List.mem_append.mp hv with hv | hv
      · exact ih v hv
      · rw [List.mem_singleton.mp hv]

/-- Witness for C2: a reachable state built by profile creation, an admin
charge of 1000 (spec Scenario E) and a settlement. -/
theorem reach_balances_nonneg_witness :
    BalancesNonneg (chargePrepaid (getProfile DB.empty "u1").2 "u1" 1000 "c1").2 :=
  reach_balances_nonneg
    (chargePrepaid (getProfile DB.empty "u1").2 "u1" 1000 "c1").2
    (Reach.charge (getProfile DB.empty "u1").2 "u1" 1000 "c1" (Reach.profile DB.empty "u1" Reach.init))

/-!  ## Claim C3 -/

/-- Case analysis on the database order creation returns: the failure paths
leave orders, payments and the order-id counter unchanged (only the catalog
is synced); the success path appends one order with the next id, appends one
payment referring to it, and — exactly when that payment is completed —
maps the completed status onto the rows with the new id. -/
theorem createOrder_db_shape (db : DB) (items : List Item) (req : CreateOrderRequest)
    (txnId baseUrl : String) :
    ((createOrder db items req txnId baseUrl).2.orders = db.orders ∧
     (createOrder db items req txnId baseUrl).2.payments = db.payments ∧
     (createOrder db items req txnId baseUrl).2.nextOrderId = db.nextOrderId) ∨
    ∃ st : PayStatus, ∃ pid : Nat,
      (createOrder db items req txnId baseUrl).2.nextOrderId = db.nextOrderId + 1 ∧
      (createOrder db items req txnId baseUrl).2.payments
        = db.payments ++ [⟨pid, db.nextOrderId, none, txnId, req.totalAmount, req.paymentMethod, st, none⟩] ∧
      ((st = .completed ∧
        (createOrder db items req txnId baseUrl).2.orders
          = ((db.orders ++ [(⟨db.nextOrderId, req.totalAmount, .pending⟩ : OrderRow)]).map
              (fun o : OrderRow => if o.id = db.nextOrderId then { o with status := .completed } else o))) ∨
       (st ≠ .completed ∧
        (createOrder db items req txnId baseUrl).2.orders
          = db.orders ++ [(⟨db.nextOrderId, req.totalAmount, .pending⟩ : OrderRow)])) := by
  unfold createOrder
  split
  · exact .inl ⟨rfl, rfl, rfl⟩
  · split
    · exact .inl ⟨rfl, rfl, rfl⟩
    · split
      next hc => exact .inr ⟨_, _, rfl, rfl, .inl ⟨rfl, rfl⟩⟩
      next hc => exact .inr ⟨_, _, rfl, rfl, .inr ⟨by decide, rfl⟩⟩

/-- Order creation preserves the id bounds and the direction "completed
order refers only to completed payments". -/
theorem createOrder_preserves_inv (db : DB) (items : List Item) (req : CreateOrderRequest)
    (txnId baseUrl : String)
    (hb : OrderIdsBounded db) (hs : OrderCompletedPaymentCompleted db) :
    OrderIdsBounded (createOrder db items req txnId baseUrl).2 ∧
    OrderCompletedPaymentCompleted (createOrder db items req txnId baseUrl).2 := by
  rcases createOrder_db_shape db items req txnId baseUrl with ⟨ho, hp, hn⟩ | ⟨st, pid, hn, hp, hcase⟩
  · refine ⟨⟨?_, ?_⟩, ?_⟩
    · intro o hoo; rw [ho] at hoo; rw [hn]; exact hb.1 o hoo
    · intro q hq; rw [hp] at hq; rw [hn]; exact hb.2 q hq
    · intro o hoo q hq; rw [ho] at hoo; rw [hp] at hq; exact hs o hoo q hq
  · rcases hcase with ⟨hst, ho⟩ | ⟨hst, ho⟩
    · refine ⟨⟨?_, ?_⟩, ?_⟩
      · intro o hoo
        rw [ho] at hoo; rw [hn]
        simp only [List.mem_map, List.mem_append, List.mem_singleton] at hoo
        obtain ⟨o1, ho1, rfl⟩ := hoo
        have hid : ((if o1.id = db.nextOrderId then { o1 with status := OrderStatus.completed } else o1) : OrderRow).id = o1.id := by
          split <;> rfl
        rw [hid]
        rcases ho1 with h1 | h1
        · have := hb.1 o1 h1; omega
        · rw [h1]
          show db.nextOrderId < db.nextOrderId + 1
          omega
      · intro q hq
        rw [hp] at hq; rw [hn]
        rcases List.mem_append.mp hq with h1 | h1
        · have := hb.2 q h1; omega
        · rw [List.mem_singleton.mp h1]
          show db.nextOrderId < db.nextOrderId + 1
          omega
      · intro o hoo q hq hoi hcomp
        rw [ho] at hoo; rw [hp] at hq
        simp only [List.mem_map, List.mem_append, List.mem_singleton] at hoo
        obtain ⟨o1, ho1, rfl⟩ := hoo
        rcases List.mem_append.mp hq with hq1 | hq1
        · have hqb := hb.2 q hq1
          rcases ho1 with h1 | h1
          · have hido : ¬ o1.id = db.nextOrderId := by have := hb.1 o1 h1; omega
            rw [if_neg hido] at hoi hcomp
            exact hs o1 h1 q hq1 hoi hcomp
          · rw [h1] at hoi
            rw [if_pos rfl] at hoi
            have hoi2 : q.orderId = db.nextOrderId := hoi
            exact absurd hoi2 (by omega)
        · have hq' := List.mem_singleton.mp hq1
          rw [hq']
          exact hst
    · refine ⟨⟨?_, ?_⟩, ?_⟩
      · intro o hoo
        rw [ho] at hoo; rw [hn]
        rcases List.mem_append.mp hoo with h1 | h1
        · have := hb.1 o h1; omega
        · rw [List.mem_singleton.mp h1]
          show db.nextOrderId < db.nextOrderId + 1
          omega
      · intro q hq
        rw [hp] at hq; rw [hn]
        rcases List.mem_append.mp hq with h1 | h1
        · have := hb.2 q h1; omega
        · rw [List.mem_singleton.mp h1]
          show db.nextOrderId < db.nextOrderId + 1
          omega
      · intro o hoo q hq hoi hcomp
        rw [ho] at hoo; rw [hp] at hq
        rcases List.mem_append.mp hoo with h1 | h1
        · rcases List.mem_append.mp hq with hq1 | hq1
          · exact hs o h1 q hq1 hoi hcomp
          · rw [List.mem_singleton.mp hq1] at hoi
            have := hb.1 o h1
            exact absurd hoi (by simp; omega)
        · rw [List.mem_singleton.mp h1] at hcomp
          exact absurd (show OrderStatus.pending = OrderStatus.completed from hcomp) (by decide)

/-- Settlement preserves the id bounds and the direction "completed order
refers only to completed payments" (its status write only moves payments
towards completed). -/
theorem settle_preserves_inv (db : DB) (tid uid : String) (now : Int)
    (hb : OrderIdsBounded db) (hs : OrderCompletedPaymentCompleted db) :
    OrderIdsBounded (settlePrepaid db tid uid now).2 ∧
    OrderCompletedPaymentCompleted (settlePrepaid db tid uid now).2 := by
  rcases settle_db_shape db tid uid now with heq | ⟨p, u, _, _, _, ho, hn, _, hpay⟩
  · rw [heq]; exact ⟨hb, hs⟩
  · refine ⟨⟨?_, ?_⟩, ?_⟩
    · intro o hoo; rw [ho] at hoo; rw [hn]; exact hb.1 o hoo
    · intro q hq
      rw [hpay] at hq; rw [hn]
      simp only [List.mem_map] at hq
      obtain ⟨q0, h0, rfl⟩ := hq
      have hid : ((if q0.transactionId == tid then { q0 with status := PayStatus.completed, paidAt := some now } else q0) : PaymentRow).orderId = q0.orderId := by
        split <;> rfl
      rw [hid]
      exact hb.2 q0 h0
    · intro o hoo q hq hoi hcomp
      rw [ho] at hoo; rw [hpay] at hq
      simp only [List.mem_map] at hq
      obtain ⟨q0, h0, rfl⟩ := hq
      have hid : ((if q0.transactionId == tid then { q0 with status := PayStatus.completed, paidAt := some now } else q0) : PaymentRow).orderId = q0.orderId := by
        split <;> rfl
      rw [hid] at hoi
      have hq0 := hs o hoo q0 h0 hoi hcomp
      split
      · rfl
      · exact hq0

/-- The admin charge preserves the id bounds and the order/payment statuses
(it touches neither relation). -/
theorem charge_preserves_inv (db : DB) (uid : String) (amount : Int) (txnId : String)
    (hb : OrderIdsBounded db) (hs : OrderCompletedPaymentCompleted db) :
    OrderIdsBounded (chargePrepaid db uid amount txnId).2 ∧
    OrderCompletedPaymentCompleted (chargePrepaid db uid amount txnId).2 := by
  rcases charge_db_shape db uid amount txnId with heq | ⟨u, _, _, ho, hn, hp, _⟩
  · rw [heq]; exact ⟨hb, hs⟩
  · refine ⟨⟨?_, ?_⟩, ?_⟩
    · intro o hoo; rw [ho] at hoo; rw [hn]; exact hb.1 o hoo
    · intro q hq; rw [hp] at hq; rw [hn]; exact hb.2 q hq
    · intro o hoo q hq; rw [ho] at hoo; rw [hp] at hq; exact hs o hoo q hq

/-- The profile view leaves orders, payments and the order-id counter
unchanged. -/
theorem profile_orders_eq (db : DB) (uid : String) :
    (getProfile db uid).2.orders = db.orders ∧ (getProfile db uid).2.nextOrderId = db.nextOrderId := by
  unfold getProfile
  split
  · exact ⟨rfl, rfl⟩
  · exact ⟨rfl, rfl⟩

/-- In every reachable state the order ids are bounded by the counter and a
completed order refers only to completed payments. -/
theorem reach_orders_inv (db : DB) (h : Reach db) :
    OrderIdsBounded db ∧ OrderCompletedPaymentCompleted db := by
  induction h with
  | init =>
    refine ⟨⟨?_, ?_⟩, ?_⟩
    · intro o hoo; cases hoo
    · intro q hq; cases hq
    · intro o hoo; cases hoo
  | order db items req txnId baseUrl _ ih =>
    exact createOrder_preserves_inv db items req txnId baseUrl ih.1 ih.2
  | settle db tid uid now _ ih =>
    exact settle_preserves_inv db tid uid now ih.1 ih.2
  | charge db uid amount txnId _ ih =>
    exact charge_preserves_inv db uid amount txnId ih.1 ih.2
  | profile db uid _ ih =>
    obtain ⟨ho, hn⟩ := profile_orders_eq db uid
    have hp := profile_payments_eq db uid
    refine ⟨⟨?_, ?_⟩, ?_⟩
    · intro o hoo; rw [ho] at hoo; rw [hn]; exact ih.1.1 o hoo
    · intro q hq; rw [hp] at hq; rw [hn]; exact ih.1.2 q hq
    · intro o hoo q hq; rw [ho] at hoo; rw [hp] at hq; exact ih.2 o hoo q hq

/-- C3 (amended): in every reachable state, a completed order refers only to
completed payments.  The converse direction of the claimed equivalence does
not hold: prepaid settlement completes the Payment but never updates the
Order (see the counterexample). -/
theorem reach_order_completed_payment_completed (db : DB) (h : Reach db) :
    OrderCompletedPaymentCompleted db :=
  (reach_orders_inv db h).2

/-- Witness for the amended C3 at a reachable state holding a completed cash
order and its completed payment. -/
theorem reach_order_completed_payment_completed_witness :
    OrderCompletedPaymentCompleted
      (createOrder DB.empty [⟨"P1", "Apple", 500⟩]
        ⟨[⟨"P1", "Apple", 500, 2⟩], 1000, .cash⟩ "t1" "https://shop").2 :=
  reach_order_completed_payment_completed
    (createOrder DB.empty [⟨"P1", "Apple", 500⟩]
      ⟨[⟨"P1", "Apple", 500, 2⟩], 1000, .cash⟩ "t1" "https://shop").2
    (Reach.order DB.empty [⟨"P1", "Apple", 500⟩]
      ⟨[⟨"P1", "Apple", 500, 2⟩], 1000, .cash⟩ "t1" "https://shop" Reach.init)

/-- Counterexample to C3 as stated: the state reached by creating a prepaid
order of 500 and settling it (after provisioning and charging the user) has
the Payment completed while its Order is still pending, so the claimed
equivalence fails in a reachable state. -/
theorem order_payment_status_iff_counterexample :
    ∃ db : DB, Reach db ∧ ∃ o ∈ db.orders, ∃ p ∈ db.payments,
      p.orderId = o.id ∧ ¬ (o.status = .completed ↔ p.status = .completed) := by
  refine
    ⟨(settlePrepaid
        (chargePrepaid
          (getProfile
            (createOrder DB.empty [⟨"P1", "Apple", 500⟩]
              ⟨[⟨"P1", "Apple", 500, 1⟩], 500, .prepaid⟩ "t1" "https://shop").2
            "u1").2
          "u1" 500 "c1").2
        "t1" "u1" 9).2, ?_, ?_⟩
  · exact Reach.settle _ "t1" "u1" 9
      (Reach.charge _ "u1" 500 "c1"
        (Reach.profile _ "u1"
          (Reach.order DB.empty [⟨"P1", "Apple", 500⟩]
            ⟨[⟨"P1", "Apple", 500, 1⟩], 500, .prepaid⟩ "t1" "https://shop" Reach.init)))
  · decide

/-!  ## Inversion of a successful order creation -/

/-- Everything a successful `POST /api/orders/` determines: the computed
total matched the declared one, the response fields, and the freshly
persisted order/payment pair with its statuses. -/
theorem createOrder_ok_inversion (db : DB) (items : List Item) (req : CreateOrderRequest)
    (txnId baseUrl : String) (resp : OrderResponse) (db1 : DB)
    (h : createOrder db items req txnId baseUrl = (.ok resp, db1)) :
    ∃ s, computeTotal items req.details = .ok s ∧ s = req.totalAmount ∧
      resp = ⟨txnId, req.totalAmount, req.paymentMethod,
              (if req.paymentMethod = .cash ∨ req.totalAmount = 0 then .completed else .pending),
              (if req.paymentMethod = .cash ∨ req.totalAmount = 0 then none else some (baseUrl ++ "/pay?txnId=" ++ txnId))⟩ ∧
      ∃ o ∈ db1.orders, ∃ p ∈ db1.payments, p.orderId = o.id ∧
        o.totalAmount = req.totalAmount ∧ p.amount = req.totalAmount ∧
        p.transactionId = txnId ∧ p.status = resp.status ∧
        o.status = (if resp.status = .completed then OrderStatus.completed else .pending) := by
  unfold createOrder at h
  split at h
  next e heq => exact absurd h (by simp)
  next t heq =>
    split at h
    next hne => exact absurd h (by simp)
    next hne =>
      split at h
      next hc =>
        simp only [Prod.mk.injEq, Except.ok.injEq, if_pos rfl, ite_true, ite_false,
          show (PayStatus.completed = PayStatus.pending) = False by simp, if_false] at h
        obtain ⟨hresp, hdb⟩ := h
        subst hdb
        subst hresp
        refine ⟨t, heq, by omega, by simp [hc], ?_⟩
        refine ⟨⟨db.nextOrderId, req.totalAmount, .completed⟩, ?_,
               ⟨db.nextPaymentId, db.nextOrderId, none, txnId, req.totalAmount, req.paymentMethod, .completed, none⟩, ?_,
               rfl, rfl, rfl, rfl, rfl, by simp⟩
        · simp only [List.mem_map, List.mem_append, List.mem_singleton]
          exact ⟨⟨db.nextOrderId, req.totalAmount, .pending⟩, .inr rfl,
            by simp [syncCatalog_nextOrderId]⟩
        · simp only [List.mem_append, List.mem_singleton]
          exact .inr rfl
      next hc =>
        simp only [Prod.mk.injEq, Except.ok.injEq, if_pos rfl, ite_true, ite_false,
          show (PayStatus.pending = PayStatus.completed) = False by simp, if_false] at h
        obtain ⟨hresp, hdb⟩ := h
        subst hdb
        subst hresp
        refine ⟨t, heq, by omega, by simp [hc], ?_⟩
        refine ⟨⟨db.nextOrderId, req.totalAmount, .pending⟩, ?_,
               ⟨db.nextPaymentId, db.nextOrderId, none, txnId, req.totalAmount, req.paymentMethod, .pending, none⟩, ?_,
               rfl, rfl, rfl, rfl, rfl, by simp⟩
        · simp only [List.mem_append, List.mem_singleton]
          exact .inr rfl
        · simp only [List.mem_append, List.mem_singleton]
          exact .inr rfl

/-!  ## Claim C5 -/

/-- C5: for every successful order creation, the sum of price times
quantity over the details equals the declared total, the persisted
Order.totalAmount and the persisted Payment.amount; and when the computed
total differs from the declared one, the operation fails with the
total-mismatch error, HTTP 400. -/
theorem createOrder_total_consistency (db : DB) (items : List Item) (req : CreateOrderRequest)
    (txnId baseUrl : String) :
    (∀ resp db1, createOrder db items req txnId baseUrl = (.ok resp, db1) →
      (req.details.map (fun d => d.price * d.quantity)).sum = req.totalAmount ∧
      resp.amount = req.totalAmount ∧
      ∃ o ∈ db1.orders, ∃ p ∈ db1.payments, p.orderId = o.id ∧
        o.totalAmount = req.totalAmount ∧ p.amount = req.totalAmount) ∧
    (∀ s, computeTotal items req.details = .ok s → s ≠ req.totalAmount →
      createOrder db items req txnId baseUrl = (.error .invalidTotalAmount, syncCatalog db items) ∧
      httpStatus .invalidTotalAmount = 400) := by
  constructor
  · intro resp db1 h
    obtain ⟨s, hct, hs, hresp, o, ho, p, hp, hop, hot, hpa, _, _, _⟩ :=
      createOrder_ok_inversion db items req txnId baseUrl resp db1 h
    have hsum := computeTotal_ok_sum items req.details s hct
    refine ⟨by omega, ?_, o, ho, p, hp, hop, hot, hpa⟩
    rw [hresp]
  · intro s hct hs
    refine ⟨?_, rfl⟩
    unfold createOrder
    rw [hct]
    dsimp only
    rw [if_pos hs]

/-- Witness for C5 on the mismatch direction: catalog price 500, quantity 2,
declared total 900. -/
theorem createOrder_total_consistency_witness :
    createOrder DB.empty [⟨"P1", "Apple", 500⟩] ⟨[⟨"P1", "Apple", 500, 2⟩], 900, .cash⟩ "t1" "b"
      = (.error .invalidTotalAmount, syncCatalog DB.empty [⟨"P1", "Apple", 500⟩]) ∧
    httpStatus .invalidTotalAmount = 400 :=
  (createOrder_total_consistency DB.empty [⟨"P1", "Apple", 500⟩]
      ⟨[⟨"P1", "Apple", 500, 2⟩], 900, .cash⟩ "t1" "b").2
    1000 (by decide) (by decide)

/-!  ## Claim C6 -/

/-- C6: a request containing a detail whose (productId, price) pair matches
no fetched catalog item fails with UnknownProduct, HTTP 400, and persists
no Order, OrderDetail or Payment row (only the catalog sync has run). -/
theorem createOrder_unknown_product (db : DB) (items : List Item) (req : CreateOrderRequest)
    (txnId baseUrl : String)
    (h : ∃ d ∈ req.details,
      items.find? (fun item => item.jan_code == d.productId && item.price == d.price) = none) :
    (createOrder db items req txnId baseUrl).1 = .error .unknownProduct ∧
    (createOrder db items req txnId baseUrl).2.orders = db.orders ∧
    (createOrder db items req txnId baseUrl).2.orderDetails = db.orderDetails ∧
    (createOrder db items req txnId baseUrl).2.payments = db.payments ∧
    httpStatus .unknownProduct = 400 := by
  have hct := computeTotal_of_unmatched items req.details h
  unfold createOrder
  rw [hct]
  exact ⟨rfl, rfl, rfl, rfl, rfl⟩

/-- Witness for C6 at spec Scenario C: the order declares price 400 while
the catalog holds 500. -/
theorem createOrder_unknown_product_witness :
    (createOrder DB.empty [⟨"P1", "Apple", 500⟩] ⟨[⟨"P1", "Apple", 400, 1⟩], 400, .cash⟩ "t1" "b").1
      = .error .unknownProduct ∧
    (createOrder DB.empty [⟨"P1", "Apple", 500⟩] ⟨[⟨"P1", "Apple", 400, 1⟩], 400, .cash⟩ "t1" "b").2.orders
      = DB.empty.orders ∧
    (createOrder DB.empty [⟨"P1", "Apple", 500⟩] ⟨[⟨"P1", "Apple", 400, 1⟩], 400, .cash⟩ "t1" "b").2.orderDetails
      = DB.empty.orderDetails ∧
    (createOrder DB.empty [⟨"P1", "Apple", 500⟩] ⟨[⟨"P1", "Apple", 400, 1⟩], 400, .cash⟩ "t1" "b").2.payments
      = DB.empty.payments ∧
    httpStatus .unknownProduct = 400 :=
  createOrder_unknown_product DB.empty [⟨"P1", "Apple", 500⟩]
    ⟨[⟨"P1", "Apple", 400, 1⟩], 400, .cash⟩ "t1" "b" (by decide)

/-!  ## Claim C8 -/

/-- C8: for every successful order creation, the payment status is completed
exactly when the method is cash or the declared total is 0 and pending
otherwise; the response carries the pay URL with the transactionId exactly
when the payment is pending; and a completed payment comes with the order
updated to completed. -/
theorem createOrder_status_payurl (db : DB) (items : List Item) (req : CreateOrderRequest)
    (txnId baseUrl : String) (resp : OrderResponse) (db1 : DB)
    (h : createOrder db items req txnId baseUrl = (.ok resp, db1)) :
    (resp.status = .completed ↔ (req.paymentMethod = .cash ∨ req.totalAmount = 0)) ∧
    (resp.status = .pending ↔ ¬ (req.paymentMethod = .cash ∨ req.totalAmount = 0)) ∧
    (resp.payUrl = if resp.status = .pending then some (baseUrl ++ "/pay?txnId=" ++ txnId) else none) ∧
    ∃ o ∈ db1.orders, ∃ p ∈ db1.payments, p.orderId = o.id ∧ p.status = resp.status ∧
      (p.status = .completed → o.status = .completed) := by
  obtain ⟨s, hct, hs, hresp, o, ho, p, hp, hop, hot, hpa, hptid, hpst, host⟩ :=
    createOrder_ok_inversion db items req txnId baseUrl resp db1 h
  subst hresp
  refine ⟨?_, ?_, ?_, o, ho, p, hp, hop, hpst, ?_⟩
  · by_cases hc : req.paymentMethod = PayMethod.cash ∨ req.totalAmount = 0 <;> simp [hc]
  · by_cases hc : req.paymentMethod = PayMethod.cash ∨ req.totalAmount = 0 <;> simp [hc]
  · by_cases hc : req.paymentMethod = PayMethod.cash ∨ req.totalAmount = 0 <;> simp [hc]
  · intro hcomp
    rw [host, if_pos (hpst.symm.trans hcomp)]

/-- Witness for C8 at spec Scenario B: a prepaid order of 1000 is created
pending and the response carries the pay URL with the transaction id. -/
theorem createOrder_status_payurl_witness :
    ((⟨"t1", 1000, .prepaid, .pending, some "https://shop/pay?txnId=t1"⟩ : OrderResponse).status = .completed ↔
      (PayMethod.prepaid = .cash ∨ (1000 : Int) = 0)) ∧
    ((⟨"t1", 1000, .prepaid, .pending, some "https://shop/pay?txnId=t1"⟩ : OrderResponse).status = .pending ↔
      ¬ (PayMethod.prepaid = .cash ∨ (1000 : Int) = 0)) ∧
    ((⟨"t1", 1000, .prepaid, .pending, some "https://shop/pay?txnId=t1"⟩ : OrderResponse).payUrl
      = if (⟨"t1", 1000, .prepaid, .pending, some "https://shop/pay?txnId=t1"⟩ : OrderResponse).status = .pending
          then some ("https://shop" ++ "/pay?txnId=" ++ "t1") else none) ∧
    ∃ o ∈ (createOrder DB.empty [⟨"P1", "Apple", 500⟩]
            ⟨[⟨"P1", "Apple", 500, 2⟩], 1000, .prepaid⟩ "t1" "https://shop").2.orders,
    ∃ p ∈ (createOrder DB.empty [⟨"P1", "Apple", 500⟩]
            ⟨[⟨"P1", "Apple", 500, 2⟩], 1000, .prepaid⟩ "t1" "https://shop").2.payments,
      p.orderId = o.id ∧
      p.status = (⟨"t1", 1000, .prepaid, .pending, some "https://shop/pay?txnId=t1"⟩ : OrderResponse).status ∧
      (p.status = .completed → o.status = .completed) :=
  createOrder_status_payurl DB.empty [⟨"P1", "Apple", 500⟩]
    ⟨[⟨"P1", "Apple", 500, 2⟩], 1000, .prepaid⟩ "t1" "https://shop"
    ⟨"t1", 1000, .prepaid, .pending, some "https://shop/pay?txnId=t1"⟩
    (createOrder DB.empty [⟨"P1", "Apple", 500⟩]
      ⟨[⟨"P1", "Apple", 500, 2⟩], 1000, .prepaid⟩ "t1" "https://shop").2
    (by decide)

/-!  ## Claim C9 -/

/-- C9 (code behavior): the payment-detail view returns the first row of the
payments table whatever transaction id is requested — here the row "a" is
returned for a request naming "b" — and on an empty table the schema parse
of the undefined row throws, surfacing as HTTP 500, never 404. -/
theorem getPaymentDetail_ignores_transaction_id :
    getPaymentDetail
        { DB.empty with payments := [⟨1, 1, none, "a", 100, .cash, .completed, none⟩, ⟨2, 2, none, "b", 200, .prepaid, .pending, none⟩], nextPaymentId := 3 }
        "b"
      = .ok ⟨"a", 100, .cash, .completed⟩ ∧
    getPaymentDetail DB.empty "b" = .error .zodParseFailure ∧
    httpStatus .zodParseFailure = 500 := by
  decide

/-!  ## Claim C1 -/

/-- Fidelity of the small-step settlement model: one request run to
completion without interference produces exactly the database and the
response of the sequential handler. -/
theorem runSchedule_single_eq_settle (db : DB) (tid uid : String) (now : Int) :
    runSchedule db [SettleThread.start tid uid now] [0, 0, 0, 0, 0, 0]
      = ((settlePrepaid db tid uid now).2,
         [⟨tid, uid, now, .done (settlePrepaid db tid uid now).1⟩]) := by
  cases hfp : findPrepaidPayment db tid with
  | none =>
    simp [runSchedule, settleStep, SettleThread.start, settlePrepaid, hfp]
  | some p =>
    by_cases hpend : p.status = .pending
    · cases hu : findUserByUid db uid with
      | none =>
        simp [runSchedule, settleStep, SettleThread.start, settlePrepaid, hfp, hpend, hu]
      | some u =>
        by_cases hbal : u.balance - p.amount < 0
        · simp [runSchedule, settleStep, SettleThread.start, settlePrepaid, hfp, hpend, hu, hbal]
        · simp [runSchedule, settleStep, SettleThread.start, settlePrepaid, hfp, hpend, hu, hbal]
          cases hre : List.find?
              ((fun q => q.transactionId == tid) ∘ fun q =>
                if q.transactionId = tid then { q with status := PayStatus.completed, paidAt := some now } else q)
              db.payments with
          | none => simp [hre]
          | some q0 => simp [hre]
    · simp [runSchedule, settleStep, SettleThread.start, settlePrepaid, hfp, hpend]

/-- C1 (code behavior): with balance 100 and two pending prepaid payments
of 100 each, the interleaving in which both requests read the user row
before either writes lets both debits succeed: neither receives
InsufficientBalance, the final balance is 0, and two payment history rows
are appended although the balance only ever dropped by 100 — the
read-compute-write debit loses one update instead of rejecting it. -/
theorem settle_concurrent_both_succeed :
    (runSchedule
        { DB.empty with
          orders := [⟨1, 100, .pending⟩, ⟨2, 100, .pending⟩],
          payments := [⟨1, 1, none, "t1", 100, .prepaid, .pending, none⟩, ⟨2, 2, none, "t2", 100, .prepaid, .pending, none⟩],
          users := [⟨1, "u1", 100⟩],
          nextOrderId := 3, nextPaymentId := 3, nextUserId := 2 }
        [SettleThread.start "t1" "u1" 5, SettleThread.start "t2" "u1" 6]
        [0, 1, 0, 1, 0, 1, 0, 1, 0, 1, 0, 1]).2.map SettleThread.pc
      = [.done (.ok ⟨"t1", 100, .prepaid, .completed⟩), .done (.ok ⟨"t2", 100, .prepaid, .completed⟩)] ∧
    (runSchedule
        { DB.empty with
          orders := [⟨1, 100, .pending⟩, ⟨2, 100, .pending⟩],
          payments := [⟨1, 1, none, "t1", 100, .prepaid, .pending, none⟩, ⟨2, 2, none, "t2", 100, .prepaid, .pending, none⟩],
          users := [⟨1, "u1", 100⟩],
          nextOrderId := 3, nextPaymentId := 3, nextUserId := 2 }
        [SettleThread.start "t1" "u1" 5, SettleThread.start "t2" "u1" 6]
        [0, 1, 0, 1, 0, 1, 0, 1, 0, 1, 0, 1]).1.users
      = [⟨1, "u1", 0⟩] ∧
    (runSchedule
        { DB.empty with
          orders := [⟨1, 100, .pending⟩, ⟨2, 100, .pending⟩],
          payments := [⟨1, 1, none, "t1", 100, .prepaid, .pending, none⟩, ⟨2, 2, none, "t2", 100, .prepaid, .pending, none⟩],
          users := [⟨1, "u1", 100⟩],
          nextOrderId := 3, nextPaymentId := 3, nextUserId := 2 }
        [SettleThread.start "t1" "u1" 5, SettleThread.start "t2" "u1" 6]
        [0, 1, 0, 1, 0, 1, 0, 1, 0, 1, 0, 1]).1.transactionHistory
      = [⟨"t1", 1, 100, .payment⟩, ⟨"t2", 1, 100, .payment⟩] := by
  refine ⟨?_, ?_, ?_⟩ <;> decide

end PaymentService
